import Mathlib

/-!
# BeeLine: verification of the schema-to-form synthesis and argument round-trip

Shallow embedding of the BeeLine repository (`src/beeline/app.py`,
`src/beeline/inputs.py`).  Pure data is modelled directly; the stateful
pieces (the stdout mirror buffer, widget values, the terminal widget) are
modelled as explicit state-passing functions.  The `argparse` standard
library, a collaborator consumed by `BeeLine.parse_arguments`, is modelled
for the fragment the app exercises: single-value `store` actions with
optional flag strings, `choices` sets, `type` converters and the final
required-arguments check.
-/

set_option autoImplicit false

namespace Beeline

/-! ## Model of `inputs.py`

`DirPath` / `FilePath` are `pathlib.Path` subclasses that override
`exists`, `is_dir` and `is_file`.  The real filesystem is modelled as a
function from path strings to what the path currently resolves to. -/

/-- What a path string resolves to on the (modelled) filesystem. -/
inductive FsEntry where
  | file
  | dir
  | other
deriving DecidableEq

/-- The ambient filesystem: `none` means the path does not exist. -/
def FileSystem : Type := String → Option FsEntry

/-- Python `pathlib.Path.exists` on the modelled filesystem. -/
def pathExists (fs : FileSystem) (p : String) : Bool :=
  (fs p).isSome

/-- Python `pathlib.Path.is_dir` on the modelled filesystem. -/
def pathIsDir (fs : FileSystem) (p : String) : Bool :=
  fs p == some FsEntry.dir

/-- Python `pathlib.Path.is_file` on the modelled filesystem. -/
def pathIsFile (fs : FileSystem) (p : String) : Bool :=
  fs p == some FsEntry.file

/-- Model of `inputs.DirPath`: a `Path` subclass reserved for directories. -/
structure DirPath where
  path : String
deriving DecidableEq

/-- Source `DirPath.exists`: `super().exists() and super().is_dir()`. -/
def DirPath.exists (fs : FileSystem) (p : DirPath) : Bool :=
  pathExists fs p.path && pathIsDir fs p.path

/-- Source `DirPath.is_dir`: always `True`. -/
def DirPath.is_dir (_p : DirPath) : Bool := true

/-- Source `DirPath.is_file`: always `False`. -/
def DirPath.is_file (_p : DirPath) : Bool := false

/-- Model of `inputs.FilePath`: a `Path` subclass reserved for files. -/
structure FilePath where
  path : String
deriving DecidableEq

/-- Source `FilePath.exists`: `super().exists() and super().is_file()`. -/
def FilePath.exists (fs : FileSystem) (q : FilePath) : Bool :=
  pathExists fs q.path && pathIsFile fs q.path

/-- Source `FilePath.is_dir`: always `False`. -/
def FilePath.is_dir (_q : FilePath) : Bool := false

/-- Source `FilePath.is_file`: always `True`. -/
def FilePath.is_file (_q : FilePath) : Bool := true

/-! ## Model of `_StdoutToTerminal` (app.py lines 23-45)

Text is modelled as `List Char`.  `write` appends to the original stdout,
buffers the chunk, and repeatedly splits off complete lines at `'\n'`
(the `while "\n" in self._buffer` loop with `split("\n", 1)`), forwarding
each to the log.  `flush` forwards any buffered partial line. -/

/-- One pass of the drain loop of `_StdoutToTerminal.write`: splits a
buffer into the complete lines before each `'\n'` (in order) and the
trailing partial line after the last `'\n'`.  This single structural pass
produces exactly what the source's `while "\n" in buffer:
line, buffer = buffer.split("\n", 1); log(line)` loop emits; the loop's
defining equations are proved below (`drainChars_loop_done` and
`drainChars_loop_step`). -/
def drainChars : List Char → List (List Char) × List Char
  | [] => ([], [])
  | c :: cs =>
    let r := drainChars cs
    if c = '\n' then ([] :: r.1, r.2)
    else
      match r.1 with
      | [] => ([], c :: r.2)
      | l :: ls => ((c :: l) :: ls, r.2)

/-- Python's `buffer.split("\n", 1)` restricted to the loop guard:
`some (line, rest)` when the buffer contains a newline, `none` otherwise. -/
def breakNL : List Char → Option (List Char × List Char)
  | [] => none
  | c :: cs =>
    if c = '\n' then some ([], cs)
    else
      match breakNL cs with
      | none => none
      | some (l, r) => some (c :: l, r)

/-- The state of the `_StdoutToTerminal` wrapper: the partial-line buffer,
the lines forwarded to `log_to_terminal`, and the bytes passed through to
the original stdout. -/
structure MirrorSt where
  buffer : List Char
  logged : List (List Char)
  origOut : List Char
deriving DecidableEq

/-- Source `_StdoutToTerminal.write`: forwards the chunk to the original stdout,
returns early on an empty chunk, otherwise buffers it and drains all
complete lines to the log. -/
def mirrorWrite (st : MirrorSt) (s : List Char) : MirrorSt :=
  if s = [] then ⟨st.buffer, st.logged, st.origOut ++ s⟩
  else
    let d := drainChars (st.buffer ++ s)
    ⟨d.2, st.logged ++ d.1, st.origOut ++ s⟩

/-- Source `_StdoutToTerminal.flush`: forwards the buffered partial line, if any,
and clears the buffer. -/
def mirrorFlush (st : MirrorSt) : MirrorSt :=
  if st.buffer = [] then st
  else ⟨[], st.logged ++ [st.buffer], st.origOut⟩

/-- The wrapper's initial state (`self._buffer = ""`). -/
def initMirror : MirrorSt := ⟨[], [], []⟩

/-- Run a finite sequence of `write` calls from the initial state. -/
def runWrites (ws : List (List Char)) : MirrorSt :=
  ws.foldl mirrorWrite initMirror

/-- Independent specification of line splitting: a single left-to-right
fold that closes the current partial line at each `'\n'`.  Used as the
specification side for the mirror theorems. -/
def splitLines (s : List Char) : List (List Char) × List Char :=
  s.foldl
    (fun acc c =>
      if c = '\n' then (acc.1 ++ [acc.2], []) else (acc.1, acc.2 ++ [c]))
    ([], [])

/-! ## Model of the argparse collaborator

`BeeLine` hands `argparse.ArgumentParser` a rebuilt `argv`; the parser
fragment the app uses is: actions storing a single value, identified by
their option strings (or positional when they have none), with a `type`
converter, an optional `choices` set and a `required` flag. -/

/-- The `type=` converters used with BeeLine: plain strings, `int`,
and the `DirPath` / `FilePath` classes from `inputs.py`. -/
inductive ArgType where
  | tStr
  | tInt
  | tDirPath
  | tFilePath
deriving DecidableEq

/-- A parsed value as stored in the `argparse.Namespace`. -/
inductive Value where
  | vStr (s : String)
  | vInt (n : Int)
  | vDir (p : String)
  | vFile (p : String)
  | vNone
deriving DecidableEq

/-- One `argparse` action: destination name, option strings (empty for a
positional), value converter, optional choices, required flag and default
value (`None` unless set). -/
structure Action where
  dest : String
  optionStrings : List String
  argType : ArgType
  choices : Option (List String)
  required : Bool
  dflt : Value
deriving DecidableEq

/-- The typed mapping produced by a successful parse
(`argparse.Namespace`, in attribute order). -/
def ArgNamespace : Type := List (String × Value)

/-- Python `str.strip()` whitespace test (ASCII whitespace classes). -/
def isPyWS (c : Char) : Bool :=
  c == ' ' || c == '\t' || c == '\n' || c == '\r' || c == '\x0b' || c == '\x0c'

/-- Python `str.strip()`: drop leading and trailing whitespace. -/
def stripStr (s : String) : String :=
  ⟨((s.data.dropWhile isPyWS).reverse.dropWhile isPyWS).reverse⟩

/-- Digits of a decimal numeral, or `none` when not a nonempty digit
string. -/
def digitsToNat : List Char → Option Nat
  | [] => none
  | cs =>
    if cs.all Char.isDigit then
      some (cs.foldl (fun n c => n * 10 + (c.toNat - 48)) 0)
    else none

/-- Python `int(s)` on simple decimal numerals (an optional sign followed
by digits); anything else raises, modelled as `none`. -/
def strToIntModel (s : String) : Option Int :=
  match s.data with
  | '-' :: rest => (digitsToNat rest).map (fun n => -(n : Int))
  | '+' :: rest => (digitsToNat rest).map (fun n => (n : Int))
  | l => (digitsToNat l).map (fun n => (n : Int))

/-- Apply an action's `type=` converter to a raw string; `Except.error`
models the conversion raising (caught by argparse and turned into a
parse error).  `DirPath(s)` / `FilePath(s)` succeed on every string, as
`pathlib.Path` construction does. -/
def convert : ArgType → String → Except String Value
  | ArgType.tStr, s => Except.ok (Value.vStr s)
  | ArgType.tInt, s =>
    match strToIntModel s with
    | some n => Except.ok (Value.vInt n)
    | none => Except.error ("invalid int value: " ++ s)
  | ArgType.tDirPath, s => Except.ok (Value.vDir s)
  | ArgType.tFilePath, s => Except.ok (Value.vFile s)

/-- argparse's choices check, applied to the converted value. -/
def checkChoices (a : Action) (v : Value) : Except String Value :=
  match a.choices with
  | none => Except.ok v
  | some cs =>
    if v ∈ cs.map Value.vStr then Except.ok v
    else Except.error ("invalid choice: " ++ a.dest)

/-- Convert a raw token and check it against the action's choices. -/
def convertCheck (a : Action) (raw : String) : Except String Value :=
  match convert a.argType raw with
  | Except.error e => Except.error e
  | Except.ok v => checkChoices a v

/-- Does a token look like an option flag to argparse (starts with the
prefix character and is not a bare dash)? -/
def dashPrefixed (s : String) : Bool :=
  match s.data with
  | [] => false
  | c :: _ => c == '-'

/-- Resolve an argv token to the action owning it as an option string. -/
def findOption (actions : List Action) (tok : String) : Option Action :=
  if dashPrefixed tok && tok != "-" then
    actions.find? (fun a => a.optionStrings.contains tok)
  else none

/-- The positional actions, in declaration order. -/
def positionalsOf (actions : List Action) : List Action :=
  actions.filter (fun a => a.optionStrings.isEmpty)

/-- Record a parsed value under a destination (later assignments
overwrite earlier ones, like `setattr` on the namespace). -/
def setAssign : List (String × Value) → String → Value → List (String × Value)
  | [], d, v => [(d, v)]
  | (d', v') :: rest, d, v =>
    if d' = d then (d, v) :: rest else (d', v') :: setAssign rest d v

/-- Consume the argv: an option token takes the next token as its value;
any other token feeds the next pending positional.  Each consumed value
goes through its action's converter and choices check. -/
def consumeArgv (actions : List Action) :
    List Action → List String → List (String × Value) →
    Except String (List (String × Value))
  | _, [], acc => Except.ok acc
  | poss, [tok], acc =>
    match findOption actions tok with
    | some _ => Except.error ("argument " ++ tok ++ ": expected one argument")
    | none =>
      match poss with
      | [] => Except.error ("unrecognized arguments: " ++ tok)
      | p :: ps =>
        match convertCheck p tok with
        | Except.error e => Except.error e
        | Except.ok v => consumeArgv actions ps [] (setAssign acc p.dest v)
  | poss, tok :: raw :: rest2, acc =>
    match findOption actions tok with
    | some a =>
      match convertCheck a raw with
      | Except.error e => Except.error e
      | Except.ok v => consumeArgv actions poss rest2 (setAssign acc a.dest v)
    | none =>
      match poss with
      | [] => Except.error ("unrecognized arguments: " ++ tok)
      | p :: ps =>
        match convertCheck p tok with
        | Except.error e => Except.error e
        | Except.ok v => consumeArgv actions ps (raw :: rest2) (setAssign acc p.dest v)

/-- Is some required action still unassigned after consumption? -/
def missingRequired (actions : List Action) (assigned : List (String × Value)) : Bool :=
  actions.any (fun a => a.required && (assigned.lookup a.dest).isNone)

/-- Build the namespace: every non-help action, in declaration order,
bound to its assigned value or its default. -/
def mkNamespace (actions : List Action) (assigned : List (String × Value)) : ArgNamespace :=
  (actions.filter (fun a => a.dest != "help")).map
    (fun a => (a.dest, (assigned.lookup a.dest).getD a.dflt))

/-- Model of `parser.parse_args(argv)` for the modelled fragment: consume the
argv, fail if a required action is missing, otherwise build the
namespace. -/
def parseArgs (actions : List Action) (argv : List String) : Except String ArgNamespace :=
  match consumeArgv actions (positionalsOf actions) argv [] with
  | Except.error e => Except.error e
  | Except.ok assigned =>
    if missingRequired actions assigned then
      Except.error "the following arguments are required"
    else Except.ok (mkNamespace actions assigned)

/-! ## Model of the `BeeLine` app methods (app.py)

Widget values are `Option String`: `none` models a widget whose `.value`
is `None`, `some s` a widget holding the string `s`.  The registered
`(dest, widget)` pairs of `self.arg_widgets` become a
`List (String × Option String)`. -/

/-- Lookup `dest_to_action[dest]` where `dest_to_action` is the comprehension
`{a.dest: a for a in self.parser_actions if a.dest != "help"}`. -/
def lookupAction (actions : List Action) (dest : String) : Option Action :=
  (actions.filter (fun a => a.dest != "help")).find? (fun a => a.dest == dest)

/-- Rendering `str(value) if value is not None else ""` (line 125). -/
def renderValue : Option String → String
  | some s => s
  | none => ""

/-- The emptiness test of lines 117-119: `value is None or
(isinstance(value, str) and value.strip() == "")`. -/
def valueEmpty : Option String → Bool
  | none => true
  | some s => stripStr s == ""

/-- The argv-building loop of `parse_arguments` (lines 113-125): for each
registered `(dest, widget)` pair, look the action up (a missing dest is a
`KeyError`, modelled as `Except.error ()`), skip empty non-required
fields, and emit `option_strings[0]` (when present) followed by the
rendered value. -/
def collectArgv (actions : List Action) :
    List (String × Option String) → Except Unit (List String)
  | [] => Except.ok []
  | (dest, value) :: rest =>
    match lookupAction actions dest with
    | none => Except.error ()
    | some action =>
      if valueEmpty value && !action.required then collectArgv actions rest
      else
        match collectArgv actions rest with
        | Except.error e => Except.error e
        | Except.ok argvRest =>
          Except.ok
            ((match action.optionStrings with
              | [] => []
              | o :: _ => [o]) ++ [renderValue value] ++ argvRest)

/-- The errors `parse_arguments` can raise: a `KeyError` from the dest
lookup (not caught by `on_run`) or a validation error from
`parse_args` (a `SystemExit`/`ValueError`, caught by `on_run`). -/
inductive PErr where
  | keyError
  | validation (msg : String)
deriving DecidableEq

/-- Source `BeeLine.parse_arguments`: rebuild the argv from the widget values
and re-parse it with the app's parser. -/
def parseArgumentsE (actions : List Action) (ws : List (String × Option String)) :
    Except PErr ArgNamespace :=
  match collectArgv actions ws with
  | Except.error _ => Except.error PErr.keyError
  | Except.ok argv =>
    match parseArgs actions argv with
    | Except.error m => Except.error (PErr.validation m)
    | Except.ok ns => Except.ok ns

/-- The form state read by `parse_arguments`: the parser actions and the
registered `(dest, widget.value)` pairs. -/
structure FormApp where
  actions : List Action
  widgets : List (String × Option String)

/-- The method `parse_arguments` as a state-passing computation: it reads the widget
values and returns the parse result together with the (unmodified) form
state. -/
def parseArgumentsRun (app : FormApp) : Except PErr ArgNamespace × FormApp :=
  (parseArgumentsE app.actions app.widgets, app)

/-- Outcome of invoking the user-supplied `on_run` callback: normal
return, or an exception carrying its message and formatted traceback. -/
inductive CbOutcome where
  | ok
  | raises (msg : String) (trace : String)

/-- A user-supplied callback, observed through its outcome on the parsed
namespace. -/
structure Callback where
  run : ArgNamespace → CbOutcome

/-- Python `repr` of a namespace value (`f"  {k}: {v!r}"` uses `!r`),
modelled for the value shapes the app produces; string escaping inside
`repr` is not modelled. -/
def reprValue : Value → String
  | Value.vStr s => "'" ++ s ++ "'"
  | Value.vInt n => toString n
  | Value.vDir p => "DirPath('" ++ p ++ "')"
  | Value.vFile p => "FilePath('" ++ p ++ "')"
  | Value.vNone => "None"

/-- The lines `on_run` logs after a successful parse (lines 150-154):
the timestamped header, one line per namespace entry, and a blank line. -/
def headerLines (ts : String) (ns : ArgNamespace) : List String :=
  ("[" ++ ts ++ "] Run pressed. Parsed arguments:") ::
    (ns.map (fun kv => "  " ++ kv.1 ++ ": " ++ reprValue kv.2) ++ [""])

/-- The line logged when no callback is set (line 166). -/
def noCbLine : String := "No on_run callback set. Nothing to execute.\n"

/-- What one press of the Run button produced: the lines passed to
`log_to_terminal`, and whether the user callback was invoked. -/
structure RunResult where
  appendedLog : List String
  callbackRan : Bool
deriving DecidableEq

/-- Source `BeeLine.on_run` (lines 139-166): parse the form; a validation error
is caught and logged; a `KeyError` propagates (it is not in the `except`
clause); on success the header lines are logged, then the callback is
invoked with any exception caught and logged with its traceback, or the
no-callback line is logged. -/
def onRunStep (actions : List Action) (ws : List (String × Option String))
    (cb : Option Callback) (ts : String) : Except PErr RunResult :=
  match parseArgumentsE actions ws with
  | Except.error PErr.keyError => Except.error PErr.keyError
  | Except.error (PErr.validation m) =>
    Except.ok ⟨["Validation error: " ++ m ++ "\n"], false⟩
  | Except.ok ns =>
    match cb with
    | some c =>
      match c.run ns with
      | CbOutcome.ok => Except.ok ⟨headerLines ts ns, true⟩
      | CbOutcome.raises m t =>
        Except.ok ⟨headerLines ts ns ++ ["Error in on_run callback: " ++ m ++ "\n", t], true⟩
    | none => Except.ok ⟨headerLines ts ns ++ [noCbLine], false⟩

/-! ## Model of `BeeLine.startup` (lines 175-215): form synthesis -/

/-- The kind of control `startup` registers for a field. -/
inductive ControlKind where
  | selection (items : List String)
  | pathText
deriving DecidableEq

/-- Python truthiness of `action.choices` (line 186): `None` and the
empty list are falsy. -/
def truthyChoices : Option (List String) → Bool
  | none => false
  | some cs => !cs.isEmpty

/-- Test `action.type is DirPath or action.type is FilePath` (line 195). -/
def isPathType (t : ArgType) : Bool :=
  t == ArgType.tDirPath || t == ArgType.tFilePath

/-- The `(dest, widget)` pairs appended to `self.arg_widgets` by the
`startup` loop: help is skipped; a truthy choices set yields a selection;
a path-typed field yields a text input with a browse button; any other
field falls out of the `if`/`elif` chain and registers nothing. -/
def synthesizeControls : List Action → List (String × ControlKind)
  | [] => []
  | a :: rest =>
    if a.dest == "help" then synthesizeControls rest
    else if truthyChoices a.choices then
      (a.dest, ControlKind.selection (a.choices.getD [])) :: synthesizeControls rest
    else if isPathType a.argType then
      (a.dest, ControlKind.pathText) :: synthesizeControls rest
    else synthesizeControls rest

/-- The non-help fields of a schema, as the spec's Schema Reader yields
them. -/
def nonHelpFields (actions : List Action) : List Action :=
  actions.filter (fun a => a.dest != "help")

/-! ## Model of the browse handler and the terminal widget -/

/-- Which picker `create_browse_handler` opens, per the captured
`path_type_selection` (`DirPath` or `FilePath`). -/
inductive PathKindSel where
  | selDir
  | selFile
deriving DecidableEq

/-- Effect of one browse interaction on the associated text input: the
new field value and any lines logged. -/
structure BrowseOutcome where
  newValue : String
  appendedLog : List String
deriving DecidableEq

/-- Source `show_dialog` (lines 77-93): await the picker; only when the result
is not `None` is `str(path)` written back into the text input.  Nothing
is ever logged by the handler. -/
def browseDialogOutcome (kind : PathKindSel) (current : String)
    (picked : Option String) : BrowseOutcome :=
  match kind, picked with
  | _, none => ⟨current, []⟩
  | _, some p => ⟨p, []⟩

/-- The terminal output widget (`toga.MultilineTextInput`), holding its
current text. -/
structure TerminalWidget where
  text : Option String
deriving DecidableEq

/-- Source `log_to_terminal` (lines 128-137): when `self.terminal_output` is
unset the call returns immediately; otherwise the line plus a newline is
appended to the widget text (scrolling failures are swallowed and do not
affect the text). -/
def logToTerminal (term : Option TerminalWidget) (line : String) :
    Option TerminalWidget :=
  match term with
  | none => none
  | some t => some ⟨some ((t.text.getD "") ++ line ++ "\n")⟩

/-! ## Specification-side definitions

These follow the spec's words (not the source) and are compared with the
source-derived definitions in the theorems below. -/

/-- Spec 4.3, per field: "skipping it if its current value is
empty/absent and the field is not required; otherwise emitting the
field's flag token (if any) followed by its string value". -/
def specFieldTokens (a : Action) (v : Option String) : List String :=
  if valueEmpty v && !a.required then []
  else
    (match a.optionStrings with
     | [] => []
     | o :: _ => [o]) ++ [renderValue v]

/-- The spec's per-field contribution, resolved through the registered
field's action (a registered field always resolves). -/
def specContribution (actions : List Action) (dv : String × Option String) : List String :=
  match lookupAction actions dv.1 with
  | none => []
  | some a => specFieldTokens a dv.2

/-- A registered field resolves to an action whose first option string is
a flag token (starts with the prefix character, not a bare dash). -/
def flaggedOk (actions : List Action) (dv : String × Option String) : Bool :=
  match lookupAction actions dv.1 with
  | none => false
  | some a =>
    match a.optionStrings with
    | [] => false
    | o :: _ => dashPrefixed o && o != "-"

/-- Every registered field of the form is flag-style. -/
def allFlagged (actions : List Action) (ws : List (String × Option String)) : Bool :=
  ws.all (flaggedOk actions)

/-- No entry of a choices set is empty or whitespace-only. -/
def blankFreeChoices (cs : List String) : Bool :=
  cs.all (fun c => stripStr c != "")

/-- Glue a partial line onto the front of a split result: it extends the
first complete line when one exists, otherwise the pending partial. -/
def glueLines (p : List Char) : List (List Char) × List Char → List (List Char) × List Char
  | ([], q) => ([], p ++ q)
  | (l :: ls, q) => ((p ++ l) :: ls, q)

/-! ## Concrete fixtures used by witnesses and counterexamples -/

/-- A plain string-typed flagged argument, as in the demo's
`--string`. -/
def strAct : Action :=
  ⟨"text_arg", ["--text_arg"], ArgType.tStr, none, false, Value.vNone⟩

/-- A required directory argument: `--input_dir` with `type=DirPath` and
`required=True`. -/
def dirAct : Action :=
  ⟨"input_dir", ["--input_dir"], ArgType.tDirPath, none, true, Value.vNone⟩

/-- A required enumerated argument: `--choices` with
`choices=["a","b","c"]`. -/
def choicesAct : Action :=
  ⟨"choices", ["--choices"], ArgType.tStr, some ["a", "b", "c"], true, Value.vNone⟩

/-- A callback that returns normally. -/
def cbOk : Callback := ⟨fun _ => CbOutcome.ok⟩

/-- A callback that raises an error with message `boom`. -/
def cbBoom : Callback :=
  ⟨fun _ => CbOutcome.raises "boom"
    "Traceback (most recent call last): RuntimeError: boom"⟩

/-! ## Theorems -/

/-- C8: for every filesystem, a `DirPath` always reports being a
directory and never a file, and exists exactly when the underlying path
exists and is a directory; symmetrically for `FilePath`. -/
theorem dirpath_filepath_overrides (fs : FileSystem) (p : DirPath) (q : FilePath) :
    DirPath.is_dir p = true ∧ DirPath.is_file p = false ∧
    (DirPath.exists fs p = true ↔ (pathExists fs p.path = true ∧ pathIsDir fs p.path = true)) ∧
    FilePath.is_file q = true ∧ FilePath.is_dir q = false ∧
    (FilePath.exists fs q = true ↔ (pathExists fs q.path = true ∧ pathIsFile fs q.path = true)) := by
  refine ⟨rfl, rfl, ?_, rfl, rfl, ?_⟩ <;>
    simp [DirPath.exists, FilePath.exists, Bool.and_eq_true]

/-- C6: dismissing a path-picker dialog (the `None` result) leaves the
associated text field unchanged and logs nothing, for either picker
kind. -/
theorem browse_cancel_noop (kind : PathKindSel) (current : String) :
    browseDialogOutcome kind current none = ⟨current, []⟩ := by
  cases kind <;> rfl

/-- C9: a `log_to_terminal` call made while the terminal widget is unset
returns without error and leaves everything unchanged — the line is
silently discarded. -/
theorem log_without_terminal_discards (line : String) :
    logToTerminal none line = none := rfl

/-- C7: the collector+validator is a pure reader of the form state:
invoking it twice without any control value changing in between yields
identical parse results, and it never mutates the state. -/
theorem parse_arguments_idempotent (app : FormApp) :
    (parseArgumentsRun (parseArgumentsRun app).2).1 = (parseArgumentsRun app).1 ∧
    (parseArgumentsRun app).2 = app :=
  ⟨rfl, rfl⟩

/-- C1 counterexample: a schema with a single plain (neither
enumerated-choice nor path-typed) field registers no control at all, so
the registered `(name, control)` pairs do not cover the non-help
fields. -/
theorem controls_bijection_fails_on_plain_field :
    synthesizeControls [strAct] = [] ∧
    (nonHelpFields [strAct]).map Action.dest = ["text_arg"] ∧
    ¬((synthesizeControls [strAct]).map Prod.fst =
        (nonHelpFields [strAct]).map Action.dest) := by
  refine ⟨rfl, rfl, ?_⟩
  decide

/-- C1 amended: the form synthesizer registers exactly one control, in
order, for each non-help field that has a truthy choices set or a
path type; fields of any other kind register no control. -/
theorem controls_match_choice_or_path_fields (as : List Action) :
    (synthesizeControls as).map Prod.fst =
      (as.filter (fun a =>
        a.dest != "help" && (truthyChoices a.choices || isPathType a.argType))).map
        Action.dest := by
  induction as with
  | nil => rfl
  | cons a rest ih =>
    by_cases h1 : a.dest = "help"
    · simp [synthesizeControls, List.filter_cons, h1, ih]
    · by_cases h2 : truthyChoices a.choices
      · simp [synthesizeControls, List.filter_cons, h1, h2, ih]
      · by_cases h3 : isPathType a.argType
        · simp [synthesizeControls, List.filter_cons, h1, h2, h3, ih]
        · simp [synthesizeControls, List.filter_cons, h1, h2, h3, ih]

/-- Helper: when every registered dest resolves to an action, the
argv-building loop succeeds and produces exactly the concatenation, in
declaration order, of the spec's per-field contributions. -/
theorem collectArgv_eq_flatMap (actions : List Action) (ws : List (String × Option String))
    (h : ∀ dv ∈ ws, (lookupAction actions dv.1).isSome = true) :
    collectArgv actions ws = Except.ok (ws.flatMap (specContribution actions)) := by
  induction ws with
  | nil => rfl
  | cons dv rest ih =>
    obtain ⟨d, v⟩ := dv
    have hd : (lookupAction actions d).isSome = true := h (d, v) (List.mem_cons_self _ _)
    obtain ⟨a, ha⟩ := Option.isSome_iff_exists.mp hd
    have ih' := ih (fun x hx => h x (List.mem_cons_of_mem _ hx))
    by_cases hskip : (valueEmpty v && !a.required) = true
    · simp [collectArgv, ha, ih', hskip, specContribution, specFieldTokens]
    · simp [collectArgv, ha, ih', hskip, specContribution, specFieldTokens]

/-- C4: the value collector walks the registered fields in declaration
order; an empty/absent value of a non-required field contributes
nothing, and every other field contributes its flag token (when it has
one) followed by the rendering of its value. -/
theorem collector_builds_argv (actions : List Action) (ws : List (String × Option String))
    (h : ∀ dv ∈ ws, (lookupAction actions dv.1).isSome = true) :
    collectArgv actions ws = Except.ok (ws.flatMap (specContribution actions)) :=
  collectArgv_eq_flatMap actions ws h

/-- C4 witness: a schema with an enumerated field set to `b` and a
non-required text field left blank collects exactly `--choices b`. -/
theorem collector_builds_argv_witness :
    (∀ dv ∈ [("choices", some "b"), ("text_arg", (some "  " : Option String))],
      (lookupAction [choicesAct, strAct] dv.1).isSome = true) ∧
    collectArgv [choicesAct, strAct] [("choices", some "b"), ("text_arg", some "  ")] =
      Except.ok ([("choices", some "b"), ("text_arg", (some "  " : Option String))].flatMap
        (specContribution [choicesAct, strAct])) :=
  ⟨by decide, collector_builds_argv _ _ (by decide)⟩

/-- C3: an error raised by the user callback is caught at the dispatcher
boundary: `on_run` returns normally (no propagation), after appending a
line with the error's message followed by the formatted traceback. -/
theorem callback_errors_caught (actions : List Action) (ws : List (String × Option String))
    (c : Callback) (ts : String) (ns : ArgNamespace) (m t : String)
    (hp : parseArgumentsE actions ws = Except.ok ns)
    (hc : c.run ns = CbOutcome.raises m t) :
    onRunStep actions ws (some c) ts =
      Except.ok ⟨headerLines ts ns ++ ["Error in on_run callback: " ++ m ++ "\n", t], true⟩ := by
  simp [onRunStep, hp, hc]

/-- C3 witness: a callback raising `boom` on an empty schema. -/
theorem callback_errors_caught_witness :
    parseArgumentsE [] [] = Except.ok [] ∧
    cbBoom.run [] = CbOutcome.raises "boom"
      "Traceback (most recent call last): RuntimeError: boom" ∧
    onRunStep [] [] (some cbBoom) "12:00:00" =
      Except.ok ⟨headerLines "12:00:00" [] ++
        ["Error in on_run callback: " ++ "boom" ++ "\n",
         "Traceback (most recent call last): RuntimeError: boom"], true⟩ :=
  ⟨rfl, rfl, callback_errors_caught [] [] cbBoom "12:00:00" [] "boom" _ rfl rfl⟩

/-- C10: with a successful parse and no callback set, the dispatcher
appends the header lines and then exactly one line stating that no
callback is set, and the run returns normally. -/
theorem no_callback_single_line (actions : List Action) (ws : List (String × Option String))
    (ts : String) (ns : ArgNamespace)
    (hp : parseArgumentsE actions ws = Except.ok ns) :
    onRunStep actions ws none ts = Except.ok ⟨headerLines ts ns ++ [noCbLine], false⟩ ∧
    (headerLines ts ns ++ [noCbLine]).count noCbLine = 1 := by
  refine ⟨by simp [onRunStep, hp], ?_⟩
  rw [List.count_append]
  have h0 : (headerLines ts ns).count noCbLine = 0 := by
    rw [List.count_eq_zero]
    intro hmem
    simp only [headerLines, List.mem_cons, List.mem_append, List.mem_map,
      List.mem_singleton] at hmem
    rcases hmem with h1 | ⟨⟨k, v⟩, _, h2⟩ | h3
    · have h4 : (some 'N' : Option Char) = some '[' :=
        congrArg (fun s => s.data.head?) h1
      simp at h4
    · have h4 : (some ' ' : Option Char) = some 'N' :=
        congrArg (fun s => s.data.head?) h2
      simp at h4
    · exact absurd h3 (by decide)
  simp [h0, List.count_cons]

/-- C2 counterexample: a required path-typed field left empty does NOT
make validation fail — the empty string converts to a valid path
(`DirPath("")`, like `pathlib.Path("")`), the parse succeeds, and the
callback IS invoked. -/
theorem required_empty_path_field_passes :
    parseArgumentsE [dirAct] [("input_dir", some "")] =
      Except.ok [("input_dir", Value.vDir "")] ∧
    onRunStep [dirAct] [("input_dir", some "")] (some cbOk) "00:00:00" =
      Except.ok ⟨headerLines "00:00:00" [("input_dir", Value.vDir "")], true⟩ := by
  exact ⟨rfl, rfl⟩

/-- Helper: a flagged-ok registered field resolves to an action. -/
theorem flaggedOk_isSome {actions : List Action} {dv : String × Option String}
    (h : flaggedOk actions dv = true) : (lookupAction actions dv.1).isSome = true := by
  unfold flaggedOk at h
  cases hl : lookupAction actions dv.1 with
  | none => rw [hl] at h; simp at h
  | some a => simp

/-- Helper: a `lookupAction` hit is an element of the action list. -/
theorem lookupAction_mem {actions : List Action} {d : String} {a : Action}
    (h : lookupAction actions d = some a) : a ∈ actions := by
  unfold lookupAction at h
  exact List.mem_of_mem_filter (List.mem_of_find?_eq_some h)

/-- Helper: a dash-prefixed option string owned by some listed action is
resolved (to some action) by `findOption`. -/
theorem findOption_isSome_of_flag {actions : List Action} {a : Action} {o : String}
    (hmem : a ∈ actions) (ho : o ∈ a.optionStrings)
    (hdash : (dashPrefixed o && o != "-") = true) :
    (findOption actions o).isSome = true := by
  unfold findOption
  rw [if_pos hdash]
  exact List.find?_isSome.mpr ⟨a, hmem, by simpa using ho⟩

/-- Helper: rendering an empty/absent widget value yields a string that
strips to empty. -/
theorem stripStr_renderValue_of_empty {v : Option String} (h : valueEmpty v = true) :
    stripStr (renderValue v) = "" := by
  cases v with
  | none => rfl
  | some s => simpa [valueEmpty, renderValue] using h

/-- Helper: converting a blank token against a blank-free choices set
always fails, whatever the action's type converter does. -/
theorem convertCheck_blank_fails {a : Action} {cs : List String} {r : String}
    (hch : a.choices = some cs) (hbf : blankFreeChoices cs = true)
    (hr : stripStr r = "") :
    ∃ e, convertCheck a r = Except.error e := by
  have hno : r ∉ cs := by
    intro hmem
    have hb := List.all_eq_true.mp hbf r hmem
    rw [hr] at hb
    simp at hb
  cases hT : a.argType with
  | tStr =>
    refine ⟨"invalid choice: " ++ a.dest, ?_⟩
    simp [convertCheck, convert, hT, checkChoices, hch, hno]
  | tInt =>
    cases hsi : strToIntModel r with
    | none => exact ⟨"invalid int value: " ++ r, by simp [convertCheck, convert, hT, hsi]⟩
    | some n =>
      refine ⟨"invalid choice: " ++ a.dest, ?_⟩
      simp [convertCheck, convert, hT, hsi, checkChoices, hch]
  | tDirPath =>
    refine ⟨"invalid choice: " ++ a.dest, ?_⟩
    simp [convertCheck, convert, hT, checkChoices, hch]
  | tFilePath =>
    refine ⟨"invalid choice: " ++ a.dest, ?_⟩
    simp [convertCheck, convert, hT, checkChoices, hch]

/-- Helper: the one-step unfolding of argv consumption on an option
token followed by its value token. -/
theorem consumeArgv_cons2 (actions poss : List Action) (tok raw : String)
    (rest2 : List String) (acc : List (String × Value)) :
    consumeArgv actions poss (tok :: raw :: rest2) acc =
      match findOption actions tok with
      | some a =>
        match convertCheck a raw with
        | Except.error e => Except.error e
        | Except.ok v => consumeArgv actions poss rest2 (setAssign acc a.dest v)
      | none =>
        match poss with
        | [] => Except.error ("unrecognized arguments: " ++ tok)
        | p :: ps =>
          match convertCheck p tok with
          | Except.error e => Except.error e
          | Except.ok v => consumeArgv actions ps (raw :: rest2) (setAssign acc p.dest v) := rfl

/-- Helper: one consumption step on an option token whose value fails
its converter or choices check. -/
theorem consumeArgv_step_error {actions poss : List Action} {tok raw : String}
    {rest : List String} {acc : List (String × Value)} {a : Action} {e : String}
    (hf : findOption actions tok = some a)
    (hcv : convertCheck a raw = Except.error e) :
    consumeArgv actions poss (tok :: raw :: rest) acc = Except.error e := by
  simp only [consumeArgv_cons2, hf, hcv]

/-- Helper: one successful consumption step on an option token and its
value. -/
theorem consumeArgv_step_ok {actions poss : List Action} {tok raw : String}
    {rest : List String} {acc : List (String × Value)} {a : Action} {v : Value}
    (hf : findOption actions tok = some a)
    (hcv : convertCheck a raw = Except.ok v) :
    consumeArgv actions poss (tok :: raw :: rest) acc
      = consumeArgv actions poss rest (setAssign acc a.dest v) := by
  simp only [consumeArgv_cons2, hf, hcv]

/-- Helper: a failed consumption makes `parse_args` fail. -/
theorem parseArgs_error_of_consume {actions : List Action} {argv : List String} {e : String}
    (h : consumeArgv actions (positionalsOf actions) argv [] = Except.error e) :
    parseArgs actions argv = Except.error e := by
  unfold parseArgs
  simp only [h]

/-- Helper: a collected argv whose re-parse fails yields a validation
error from `parse_arguments`. -/
theorem parseArgumentsE_validation {actions : List Action}
    {ws : List (String × Option String)} {argv : List String} {m : String}
    (hc : collectArgv actions ws = Except.ok argv)
    (hp : parseArgs actions argv = Except.error m) :
    parseArgumentsE actions ws = Except.error (PErr.validation m) := by
  unfold parseArgumentsE
  simp only [hc, hp]

/-- Helper: consuming the argv blocks contributed by flag-style fields
either fails or passes control, with the positionals untouched, to the
remaining tokens. -/
theorem consume_blocks (actions poss : List Action) (rest : List String)
    (ws : List (String × Option String)) (hall : allFlagged actions ws = true) :
    ∀ acc,
      (∃ e, consumeArgv actions poss (ws.flatMap (specContribution actions) ++ rest) acc
          = Except.error e) ∨
      (∃ acc2, consumeArgv actions poss (ws.flatMap (specContribution actions) ++ rest) acc
          = consumeArgv actions poss rest acc2) := by
  induction ws with
  | nil => exact fun acc => Or.inr ⟨acc, by simp⟩
  | cons dv tl ih =>
    intro acc
    rw [allFlagged, List.all_cons, Bool.and_eq_true] at hall
    have hok := hall.1
    have ih' := ih hall.2
    cases hl : lookupAction actions dv.1 with
    | none => simp [flaggedOk, hl] at hok
    | some a =>
      cases hos : a.optionStrings with
      | nil => simp [flaggedOk, hl, hos] at hok
      | cons o os =>
        have hdash : (dashPrefixed o && o != "-") = true := by
          have h' := hok
          simp only [flaggedOk, hl, hos] at h'
          exact h'
        by_cases hskip : (valueEmpty dv.2 && !a.required) = true
        · have hcontrib : specContribution actions dv = [] := by
            simp [specContribution, hl, specFieldTokens, hskip]
          rw [List.flatMap_cons, hcontrib, List.nil_append]
          exact ih' acc
        · have hcontrib : specContribution actions dv = [o, renderValue dv.2] := by
            simp [specContribution, hl, specFieldTokens, hskip, hos]
          rw [List.flatMap_cons, hcontrib]
          have hsh : (([o, renderValue dv.2] ++ tl.flatMap (specContribution actions)) ++ rest)
              = o :: renderValue dv.2 :: (tl.flatMap (specContribution actions) ++ rest) := by
            simp
          rw [hsh]
          have hfs : (findOption actions o).isSome = true :=
            findOption_isSome_of_flag (lookupAction_mem hl)
              (hos ▸ List.mem_cons_self o os) hdash
          obtain ⟨a2, ha2⟩ := Option.isSome_iff_exists.mp hfs
          cases hcv : convertCheck a2 (renderValue dv.2) with
          | error e =>
            exact Or.inl ⟨e, consumeArgv_step_error ha2 hcv⟩
          | ok v =>
            have hstep := @consumeArgv_step_ok actions poss o (renderValue dv.2)
              (tl.flatMap (specContribution actions) ++ rest) acc a2 v ha2 hcv
            rcases ih' (setAssign acc a2.dest v) with ⟨e, he⟩ | ⟨acc2, hacc⟩
            · exact Or.inl ⟨e, by rw [hstep]; exact he⟩
            · exact Or.inr ⟨acc2, by rw [hstep]; exact hacc⟩

/-- C2 amended: the claim holds for required enumerated-choice fields on
a flag-style form: when some registered field is required, has a choices
set with no blank entry, and its control is empty, collection+validation
fails with a logged validation error and the callback is never invoked.
(As the counterexample shows, it fails for required path-typed fields.) -/
theorem required_empty_choice_field_fails (actions : List Action)
    (ws : List (String × Option String)) (cb : Option Callback) (ts d : String)
    (v : Option String) (a : Action) (o : String) (os cs : List String)
    (hall : allFlagged actions ws = true)
    (hmem : (d, v) ∈ ws)
    (hempty : valueEmpty v = true)
    (hla : lookupAction actions d = some a)
    (hos : a.optionStrings = o :: os)
    (hfind : findOption actions o = some a)
    (hreq : a.required = true)
    (hch : a.choices = some cs)
    (hbf : blankFreeChoices cs = true) :
    (∃ m, parseArgumentsE actions ws = Except.error (PErr.validation m)) ∧
    (∃ m, onRunStep actions ws cb ts =
      Except.ok ⟨["Validation error: " ++ m ++ "\n"], false⟩) := by
  have hmain : ∃ m, parseArgumentsE actions ws = Except.error (PErr.validation m) := by
    have hres : ∀ dv ∈ ws, (lookupAction actions dv.1).isSome = true := by
      intro dv hdv
      exact flaggedOk_isSome (List.all_eq_true.mp hall dv hdv)
    have hcoll := collectArgv_eq_flatMap actions ws hres
    obtain ⟨pre, post, hsplit⟩ := List.append_of_mem hmem
    have hallpre : allFlagged actions pre = true := by
      rw [hsplit, allFlagged, List.all_append, Bool.and_eq_true] at hall
      exact hall.1
    have hcontrib : specContribution actions (d, v) = [o, renderValue v] := by
      have hskip : (valueEmpty v && !a.required) = false := by
        rw [hempty, hreq]
        rfl
      simp [specContribution, hla, specFieldTokens, hskip, hos]
    have hargv : ws.flatMap (specContribution actions) =
        pre.flatMap (specContribution actions) ++
          (o :: renderValue v :: post.flatMap (specContribution actions)) := by
      rw [hsplit, List.flatMap_append, List.flatMap_cons, hcontrib]
      simp
    have hfail : ∃ m, parseArgs actions (ws.flatMap (specContribution actions))
        = Except.error m := by
      rcases consume_blocks actions (positionalsOf actions)
          (o :: renderValue v :: post.flatMap (specContribution actions)) pre hallpre []
        with ⟨e, he⟩ | ⟨acc2, hacc⟩
      · refine ⟨e, parseArgs_error_of_consume ?_⟩
        rw [hargv]
        exact he
      · obtain ⟨em, hem⟩ := convertCheck_blank_fails hch hbf
          (stripStr_renderValue_of_empty hempty)
        refine ⟨em, parseArgs_error_of_consume ?_⟩
        rw [hargv, hacc]
        exact consumeArgv_step_error hfind hem
    obtain ⟨m, hm⟩ := hfail
    exact ⟨m, parseArgumentsE_validation hcoll hm⟩
  obtain ⟨m, hm⟩ := hmain
  exact ⟨⟨m, hm⟩, ⟨m, by simp [onRunStep, hm]⟩⟩

/-- C2 (amended) witness: a required `--choices` field left empty makes
the run abort with a validation error and no callback invocation. -/
theorem required_empty_choice_field_fails_witness :
    (∃ m, parseArgumentsE [choicesAct] [("choices", some "")]
        = Except.error (PErr.validation m)) ∧
    (∃ m, onRunStep [choicesAct] [("choices", some "")] (some cbOk) "00:00:00" =
      Except.ok ⟨["Validation error: " ++ m ++ "\n"], false⟩) :=
  required_empty_choice_field_fails [choicesAct] [("choices", some "")] (some cbOk)
    "00:00:00" "choices" (some "") choicesAct "--choices" [] ["a", "b", "c"]
    (by decide) (by decide) (by decide) (by decide) (by decide) (by decide)
    (by decide) (by decide) (by decide)

/-- Helper: a buffer containing no newline drains to itself, emitting no
line. -/
theorem drainChars_no_nl {s : List Char} (h : '\n' ∉ s) : drainChars s = ([], s) := by
  induction s with
  | nil => rfl
  | cons c cs ih =>
    simp only [List.mem_cons, not_or] at h
    have hc : ¬(c = '\n') := fun hh => h.1 hh.symm
    simp [drainChars, hc, ih h.2]

/-- Helper: the trailing partial line left by a drain never contains a
newline. -/
theorem drainChars_rest_no_nl (s : List Char) : '\n' ∉ (drainChars s).2 := by
  induction s with
  | nil => simp [drainChars]
  | cons c cs ih =>
    by_cases hc : c = '\n'
    · subst hc
      simp [drainChars, ih]
    · cases hr : (drainChars cs).1 with
      | nil => simp [drainChars, hc, hr, List.mem_cons, Ne.symm hc, ih]
      | cons l ls => simp [drainChars, hc, hr, ih]

/-- Helper: the one-step unfolding of `breakNL` on a cons. -/
theorem breakNL_cons (c : Char) (cs : List Char) :
    breakNL (c :: cs) =
      if c = '\n' then some ([], cs)
      else
        match breakNL cs with
        | none => none
        | some (l, r) => some (c :: l, r) := rfl

/-- Helper: `breakNL` returns `none` only on newline-free buffers. -/
theorem breakNL_none_no_nl {s : List Char} (h : breakNL s = none) : '\n' ∉ s := by
  induction s with
  | nil => simp
  | cons c cs ih =>
    by_cases hc : c = '\n'
    · rw [breakNL_cons, if_pos hc] at h
      exact Option.noConfusion h
    · rw [breakNL_cons, if_neg hc] at h
      cases hb : breakNL cs with
      | none => simp [List.mem_cons, Ne.symm hc, ih hb]
      | some p =>
        obtain ⟨l', r'⟩ := p
        rw [hb] at h
        have h2 : (some (c :: l', r') : Option (List Char × List Char)) = none := h
        exact Option.noConfusion h2

/-- Helper: a `breakNL` hit decomposes the buffer at its first
newline. -/
theorem breakNL_some_shape {s l r : List Char} (h : breakNL s = some (l, r)) :
    s = l ++ '\n' :: r ∧ '\n' ∉ l := by
  induction s generalizing l r with
  | nil => exact Option.noConfusion h
  | cons c cs ih =>
    by_cases hc : c = '\n'
    · rw [breakNL_cons, if_pos hc] at h
      have hp := Option.some.inj h
      have hl : l = [] := (congrArg Prod.fst hp).symm
      have hr : r = cs := (congrArg Prod.snd hp).symm
      subst hl
      subst hr
      subst hc
      simp
    · rw [breakNL_cons, if_neg hc] at h
      cases hb : breakNL cs with
      | none =>
        rw [hb] at h
        exact Option.noConfusion h
      | some p =>
        obtain ⟨l', r'⟩ := p
        rw [hb] at h
        have h2 : (some (c :: l', r') : Option (List Char × List Char)) = some (l, r) := h
        have hp := Option.some.inj h2
        have hl : l = c :: l' := (congrArg Prod.fst hp).symm
        have hr : r = r' := (congrArg Prod.snd hp).symm
        obtain ⟨hs, hnl⟩ := ih hb
        subst hl
        subst hr
        subst hs
        refine ⟨rfl, ?_⟩
        simp [List.mem_cons, Ne.symm hc, hnl]

/-- Helper: draining a newline-free prefix followed by an explicit
newline emits that prefix as the first complete line. -/
theorem drainChars_prefix_nl {l : List Char} (r : List Char) (h : '\n' ∉ l) :
    drainChars (l ++ '\n' :: r) = (l :: (drainChars r).1, (drainChars r).2) := by
  induction l with
  | nil => simp [drainChars]
  | cons c l' ih =>
    simp only [List.mem_cons, not_or] at h
    have hc : ¬(c = '\n') := fun hh => h.1 hh.symm
    have ih' := ih h.2
    simp [drainChars, hc, ih']

/-- The source's drain loop, first equation: no newline in the buffer
means no iteration — nothing is emitted and the buffer is kept. -/
theorem drainChars_loop_done {s : List Char} (h : breakNL s = none) :
    drainChars s = ([], s) :=
  drainChars_no_nl (breakNL_none_no_nl h)

/-- The source's drain loop, second equation: one `split("\n", 1)` emits
the first line and continues on the remainder — `drainChars` satisfies
the `while "\n" in buffer` loop's recurrence. -/
theorem drainChars_loop_step {s l r : List Char} (h : breakNL s = some (l, r)) :
    drainChars s = (l :: (drainChars r).1, (drainChars r).2) := by
  obtain ⟨hs, hnl⟩ := breakNL_some_shape h
  rw [hs]
  exact drainChars_prefix_nl r hnl

/-- Helper: draining a concatenation first drains the left part, then
continues with its leftover partial line glued to the right part. -/
theorem drainChars_append (a b : List Char) :
    drainChars (a ++ b) =
      ((drainChars a).1 ++ (drainChars ((drainChars a).2 ++ b)).1,
       (drainChars ((drainChars a).2 ++ b)).2) := by
  induction a with
  | nil => simp [drainChars]
  | cons c a' ih =>
    by_cases hc : c = '\n'
    · subst hc
      simp [drainChars, ih]
    · cases hr : (drainChars a').1 with
      | nil =>
        simp only [List.cons_append, drainChars, ih, hr, if_neg hc, List.nil_append]
        cases hG : (drainChars ((drainChars a').2 ++ b)).1 <;>
          simp [drainChars, hc, hG, ih, hr]
      | cons l ls =>
        simp [drainChars, hc, hr, ih, List.append_assoc]

/-- Helper: the effect of a whole sequence of `write` calls, from any
state whose buffer holds no complete line. -/
theorem foldl_mirrorWrite (ws : List (List Char)) :
    ∀ st : MirrorSt, drainChars st.buffer = ([], st.buffer) →
      ws.foldl mirrorWrite st =
        ⟨(drainChars (st.buffer ++ ws.flatten)).2,
         st.logged ++ (drainChars (st.buffer ++ ws.flatten)).1,
         st.origOut ++ ws.flatten⟩ := by
  induction ws with
  | nil =>
    intro st h
    simp only [List.foldl_nil, List.flatten_nil, List.append_nil, h]
  | cons s rest ih =>
    intro st h
    by_cases hs : s = []
    · subst hs
      rw [List.foldl_cons]
      have hmw : mirrorWrite st [] = ⟨st.buffer, st.logged, st.origOut ++ []⟩ := by
        simp [mirrorWrite]
      rw [hmw, ih ⟨st.buffer, st.logged, st.origOut ++ []⟩ h]
      simp
    · rw [List.foldl_cons]
      have hmw : mirrorWrite st s =
          ⟨(drainChars (st.buffer ++ s)).2,
           st.logged ++ (drainChars (st.buffer ++ s)).1, st.origOut ++ s⟩ := by
        simp [mirrorWrite, hs]
      have h2 : drainChars ((drainChars (st.buffer ++ s)).2)
          = ([], (drainChars (st.buffer ++ s)).2) :=
        drainChars_no_nl (drainChars_rest_no_nl _)
      rw [hmw, ih ⟨(drainChars (st.buffer ++ s)).2,
        st.logged ++ (drainChars (st.buffer ++ s)).1, st.origOut ++ s⟩ h2]
      have hflat : st.buffer ++ (s :: rest).flatten = (st.buffer ++ s) ++ rest.flatten := by
        rw [List.flatten_cons, List.append_assoc]
      rw [hflat, drainChars_append (st.buffer ++ s) rest.flatten]
      simp [List.append_assoc]

/-- Helper: prepending an inert prefix and a pending partial to the
line-splitting fold. -/
theorem foldl_splitLines_step (s : List Char) :
    ∀ (L : List (List Char)) (p : List Char),
      s.foldl
        (fun acc c =>
          if c = '\n' then (acc.1 ++ [acc.2], []) else (acc.1, acc.2 ++ [c]))
        (L, p)
      = (L ++ (glueLines p (drainChars s)).1, (glueLines p (drainChars s)).2) := by
  induction s with
  | nil =>
    intro L p
    simp [drainChars, glueLines]
  | cons c cs ih =>
    intro L p
    rw [List.foldl_cons]
    by_cases hc : c = '\n'
    · have hstep :
          (if c = '\n' then ((L, p).1 ++ [(L, p).2], ([] : List Char))
           else ((L, p).1, (L, p).2 ++ [c])) = (L ++ [p], []) := by
        simp [hc]
      rw [hstep, ih (L ++ [p]) []]
      have hdc : drainChars (c :: cs) = ([] :: (drainChars cs).1, (drainChars cs).2) := by
        simp [drainChars, hc]
      rw [hdc]
      cases hD : drainChars cs with
      | mk D1 D2 => cases D1 <;> simp [glueLines, List.append_assoc]
    · have hstep :
          (if c = '\n' then ((L, p).1 ++ [(L, p).2], ([] : List Char))
           else ((L, p).1, (L, p).2 ++ [c])) = (L, p ++ [c]) := by
        simp [hc]
      rw [hstep, ih L (p ++ [c])]
      cases hD : drainChars cs with
      | mk D1 D2 =>
        have hdc : drainChars (c :: cs) =
            match D1 with
            | [] => ([], c :: D2)
            | l :: ls => ((c :: l) :: ls, D2) := by
          cases D1 <;> simp [drainChars, hc, hD]
        rw [hdc]
        cases D1 <;> simp [glueLines, List.append_assoc]

/-- Helper: the single-pass drain equals the independent left-to-right
line-splitting specification. -/
theorem drainChars_eq_splitLines (s : List Char) : drainChars s = splitLines s := by
  rw [splitLines, foldl_splitLines_step s [] []]
  cases hD : drainChars s with
  | mk D1 D2 => cases D1 <;> simp [glueLines]

/-- C5: for every finite sequence of writes, the original stdout
receives exactly the written bytes in order; the complete lines of the
concatenated stream are forwarded to the log exactly once, in order,
with the trailing partial line held in the buffer; and a final flush
forwards that partial line (when nonempty) and empties the buffer. -/
theorem stdout_mirror_lines (ws : List (List Char)) :
    (runWrites ws).origOut = ws.flatten ∧
    (runWrites ws).logged = (splitLines ws.flatten).1 ∧
    (runWrites ws).buffer = (splitLines ws.flatten).2 ∧
    (mirrorFlush (runWrites ws)).origOut = ws.flatten ∧
    (mirrorFlush (runWrites ws)).logged =
      (splitLines ws.flatten).1 ++
        (if (splitLines ws.flatten).2 = [] then [] else [(splitLines ws.flatten).2]) ∧
    (mirrorFlush (runWrites ws)).buffer = [] := by
  have hrun : runWrites ws =
      ⟨(drainChars ws.flatten).2, (drainChars ws.flatten).1, ws.flatten⟩ := by
    rw [runWrites, foldl_mirrorWrite ws initMirror rfl]
    simp [initMirror]
  rw [hrun, ← drainChars_eq_splitLines]
  by_cases hb : (drainChars ws.flatten).2 = []
  · simp [mirrorFlush, hb]
  · simp [mirrorFlush, hb]

/-- C10 witness: empty schema, no callback. -/
theorem no_callback_single_line_witness :
    parseArgumentsE [] [] = Except.ok [] ∧
    (onRunStep [] [] none "12:00:00" =
        Except.ok ⟨headerLines "12:00:00" [] ++ [noCbLine], false⟩ ∧
      (headerLines "12:00:00" [] ++ [noCbLine]).count noCbLine = 1) :=
  ⟨rfl, no_callback_single_line [] [] "12:00:00" [] rfl⟩

end Beeline
